import Mathlib

/-!
Verification of the bna-rentals-ts data pipeline.

Shallow embedding of the TypeScript sources:
  * `src/lib/db/migrator.ts`   — key generation, record conversion, deduplication
  * `src/lib/zillow/fetcher.ts` — page fetching/retry, pagination, flattening,
    record validation
  * `src/lib/zillow/types.ts`  — Zod property schema
  * `src/lib/config/constants.ts` — configuration constants

JavaScript numbers are modelled as exact rationals (`ℚ`); JavaScript's
`Map`/object insertion-order semantics are modelled with association lists.
-/

namespace BnaRentals

/-! ## JavaScript primitives -/

/-- JavaScript `Math.floor` on a (finite) number, written computably
(`⌊q⌋ = q.num / q.den` by `Rat.floor_def`). -/
def jsFloor (q : ℚ) : ℤ := q.num / q.den

/-- JavaScript `Math.round`: rounds half-way cases toward positive infinity,
i.e. `Math.round x = ⌊x + 1/2⌋`. -/
def jsRound (q : ℚ) : ℤ := jsFloor (q + 1/2)

/-! ## Data model (`src/lib/zillow/types.ts`)

`ZillowPropertySchema` fields that are `.nullable().optional()` are modelled
as `Option`: `none` stands for JavaScript `null`/`undefined` (the two are
interchangeable downstream: `?? null` maps both to `null`, and both are falsy).
-/

/-- `UnitSchema`: `price`, `beds`, `bathrooms`, each an optional number. -/
structure RentalUnit where
  price : Option ℚ
  beds : Option ℚ
  bathrooms : Option ℚ
  deriving DecidableEq, Repr

/-- `ZillowProperty` (from `ZillowPropertySchema`): `detailUrl` is the only
required field; every other field is nullable and optional. -/
structure ZillowProperty where
  longitude : Option ℚ := none
  latitude : Option ℚ := none
  detailUrl : String
  price : Option ℚ := none
  bedrooms : Option ℚ := none
  bathrooms : Option ℚ := none
  livingArea : Option ℚ := none
  propertyType : Option String := none
  address : Option String := none
  units : Option (List RentalUnit) := none
  deriving DecidableEq, Repr

/-- Database row shape `Omit<NashvilleRental, 'created_at' | 'updated_at'>`
produced by `DatabaseMigrator.propertyToRecord`. -/
structure NashvilleRentalRecord where
  record_id : String
  detail_url : String
  longitude : Option ℚ
  latitude : Option ℚ
  address : Option String
  price : Option ℤ
  bedrooms : Option ℚ
  bathrooms : Option ℚ
  living_area : Option ℚ
  property_type : Option String
  units : Option (List RentalUnit)
  ingestion_date : String
  deriving DecidableEq, Repr

/-! ## Constants (`src/lib/config/constants.ts`) -/

def MAX_PAGES : Nat := 10
def RATE_LIMIT_WAIT_MS : Nat := 5000
def DEFAULT_RETRIES : Nat := 4
def PRIMARY_KEY_SOURCE_COLUMNS : List String := ["detail_url"]

/-! ## SHA-256 (Node's `createHash('sha256')`, FIPS 180-4)

`generateRecordId` hashes the UTF-8 bytes of its seed with SHA-256 and emits
lowercase hex (Node `digest('hex')`), then uppercases.  Words are `Nat`s
reduced modulo `2^32`; messages are byte lists. -/

namespace Sha256

def M32 : Nat := 4294967296

def add32 (a b : Nat) : Nat := (a + b) % M32

/-- Right-rotation of a 32-bit word (input assumed `< 2^32`). -/
def rotr32 (n x : Nat) : Nat := (x >>> n) ||| ((x <<< (32 - n)) % M32)

/-- Bitwise complement of a 32-bit word. -/
def not32 (x : Nat) : Nat := (M32 - 1) - x

def ch (x y z : Nat) : Nat := (x &&& y) ^^^ (not32 x &&& z)

def maj (x y z : Nat) : Nat := (x &&& y) ^^^ (x &&& z) ^^^ (y &&& z)

def bsig0 (x : Nat) : Nat := rotr32 2 x ^^^ rotr32 13 x ^^^ rotr32 22 x

def bsig1 (x : Nat) : Nat := rotr32 6 x ^^^ rotr32 11 x ^^^ rotr32 25 x

def ssig0 (x : Nat) : Nat := rotr32 7 x ^^^ rotr32 18 x ^^^ (x >>> 3)

def ssig1 (x : Nat) : Nat := rotr32 17 x ^^^ rotr32 19 x ^^^ (x >>> 10)

/-- The eight initial hash values (FIPS 180-4 §5.3.3, in decimal). -/
def H0 : List Nat :=
  [1779033703, 3144134277, 1013904242, 2773480762,
   1359893119, 2600822924, 528734635, 1541459225]

/-- The 64 round constants (FIPS 180-4 §4.2.2, in decimal). -/
def K : List Nat :=
  [1116352408, 1899447441, 3049323471, 3921009573, 961987163,
   1508970993, 2453635748, 2870763221, 3624381080, 310598401,
   607225278, 1426881987, 1925078388, 2162078206, 2614888103,
   3248222580, 3835390401, 4022224774, 264347078, 604807628,
   770255983, 1249150122, 1555081692, 1996064986, 2554220882,
   2821834349, 2952996808, 3210313671, 3336571891, 3584528711,
   113926993, 338241895, 666307205, 773529912, 1294757372,
   1396182291, 1695183700, 1986661051, 2177026350, 2456956037,
   2730485921, 2820302411, 3259730800, 3345764771, 3516065817,
   3600352804, 4094571909, 275423344, 430227734, 506948616,
   659060556, 883997877, 958139571, 1322822218, 1537002063,
   1747873779, 1955562222, 2024104815, 2227730452, 2361852424,
   2428436474, 2756734187, 3204031479, 3329325298]

/-- Big-endian 8-byte encoding of a 64-bit length. -/
def len64be (n : Nat) : List Nat :=
  [n >>> 56 % 256, n >>> 48 % 256, n >>> 40 % 256, n >>> 32 % 256,
   n >>> 24 % 256, n >>> 16 % 256, n >>> 8 % 256, n % 256]

/-- FIPS 180-4 §5.1.1 padding: `0x80`, zeros, 64-bit big-endian bit length. -/
def pad (msg : List Nat) : List Nat :=
  let len := msg.length
  let zeros := (64 - (len + 9) % 64) % 64
  msg ++ [0x80] ++ List.replicate zeros 0 ++ len64be (8 * len)

/-- Group bytes into big-endian 32-bit words. -/
def bytesToWords : List Nat → List Nat
  | b0 :: b1 :: b2 :: b3 :: rest =>
      (((b0 <<< 8 ||| b1) <<< 8 ||| b2) <<< 8 ||| b3) :: bytesToWords rest
  | _ => []

/-- Extend a 16-word message schedule by `fuel` further words
(`W[t] = σ₁(W[t-2]) + W[t-7] + σ₀(W[t-15]) + W[t-16]`). -/
def schedule (w : List Nat) : Nat → List Nat
  | 0 => w
  | fuel + 1 =>
      let n := w.length
      let get := fun (k : Nat) => w.getD (n - k) 0
      schedule
        (w ++ [add32 (add32 (ssig1 (get 2)) (get 7)) (add32 (ssig0 (get 15)) (get 16))])
        fuel

/-- One compression round: state is the 8-word list `[a,b,c,d,e,f,g,h]`. -/
def roundStep (s : List Nat) (kw : Nat × Nat) : List Nat :=
  match s with
  | [a, b, c, d, e, f, g, h] =>
      let t1 := add32 (add32 (add32 h (bsig1 e)) (add32 (ch e f g) kw.1)) kw.2
      let t2 := add32 (bsig0 a) (maj a b c)
      [add32 t1 t2, a, b, c, add32 d t1, e, f, g]
  | s => s

/-- Compress one 64-byte block into the running state. -/
def compress (st : List Nat) (block : List Nat) : List Nat :=
  let w := schedule (bytesToWords block) 48
  let s := (List.zip K w).foldl roundStep st
  List.zipWith add32 st s

/-- Compress `count` consecutive 64-byte blocks of `bytes` into the state. -/
def compressBlocks : Nat → List Nat → List Nat → List Nat
  | 0, st, _ => st
  | count + 1, st, bytes => compressBlocks count (compress st (bytes.take 64)) (bytes.drop 64)

/-- SHA-256 digest of a byte list as eight 32-bit words. -/
def sha256Words (msg : List Nat) : List Nat :=
  let padded := pad msg
  compressBlocks (padded.length / 64) H0 padded

/-- Big-endian bytes of a 32-bit word. -/
def wordBytes (w : Nat) : List Nat :=
  [w >>> 24 % 256, w >>> 16 % 256, w >>> 8 % 256, w % 256]

/-- SHA-256 digest of a byte list as 32 bytes. -/
def sha256Bytes (msg : List Nat) : List Nat :=
  (sha256Words msg).foldr (fun w acc => wordBytes w ++ acc) []

/-- Lowercase hex digit. -/
def hexDigit (n : Nat) : Char :=
  if n < 10 then Char.ofNat (48 + n) else Char.ofNat (87 + n)

/-- Node `digest('hex')`: lowercase hex string of the digest bytes. -/
def sha256Hex (msg : List Nat) : String :=
  String.mk ((sha256Bytes msg).foldr (fun b acc => hexDigit (b / 16) :: hexDigit (b % 16) :: acc) [])

end Sha256

/-- UTF-8 bytes of a Unicode code point. -/
def utf8Bytes (c : Nat) : List Nat :=
  if c < 0x80 then [c]
  else if c < 0x800 then [0xc0 + c / 64, 0x80 + c % 64]
  else if c < 0x10000 then [0xe0 + c / 4096, 0x80 + c / 64 % 64, 0x80 + c % 64]
  else [0xf0 + c / 262144, 0x80 + c / 4096 % 64, 0x80 + c / 64 % 64, 0x80 + c % 64]

/-- UTF-8 encoding of a string (Node's `update(seed, 'utf8')`). -/
def strUtf8 (s : String) : List Nat :=
  (s.data.map (fun ch => utf8Bytes ch.toNat)).flatten

/-- JavaScript `String.prototype.toUpperCase` restricted to ASCII
(hex digests only contain `0-9a-f`). -/
def jsToUpperCase (s : String) : String :=
  String.mk (s.data.map (fun c =>
    if 97 ≤ c.toNat ∧ c.toNat ≤ 122 then Char.ofNat (c.toNat - 32) else c))

/-! ## `DatabaseMigrator` (`src/lib/db/migrator.ts`) -/

/-- `DatabaseMigrator.generateRecordId`: seed each primary-key source column
(`detail_url` maps to `property.detailUrl || ''`, anything else to `''`),
join with `'__||__'`, SHA-256 the UTF-8 bytes, and uppercase the hex digest. -/
def generateRecordId (property : ZillowProperty) : String :=
  let seedParts := PRIMARY_KEY_SOURCE_COLUMNS.map (fun col =>
    if col = "detail_url" then
      -- `property.detailUrl || ''` : the empty string is falsy and maps to `''`
      (if property.detailUrl = "" then "" else property.detailUrl)
    else "")
  let seed := String.intercalate "__||__" seedParts
  jsToUpperCase (Sha256.sha256Hex (strUtf8 seed))

/-- `DatabaseMigrator.propertyToRecord`: derive the key, convert the price via
`property.price ? Math.round(property.price * 100) : null` (note JavaScript
truthiness: `0` is falsy, so a zero price also maps to `null`), and null-coalesce
the remaining optional fields. -/
def propertyToRecord (property : ZillowProperty) (ingestionDate : String) :
    NashvilleRentalRecord :=
  let recordId := generateRecordId property
  let priceInCents : Option ℤ :=
    match property.price with
    | some p => if p ≠ 0 then some (jsRound (p * 100)) else none
    | none => none
  { record_id := recordId
    detail_url := property.detailUrl
    longitude := property.longitude
    latitude := property.latitude
    address := property.address
    price := priceInCents
    bedrooms := property.bedrooms
    bathrooms := property.bathrooms
    living_area := property.livingArea
    property_type := property.propertyType
    units := property.units
    ingestion_date := ingestionDate }

/-- Insertion-ordered map `set` (JavaScript `Map.prototype.set`): re-setting an
existing key updates the value in place, a new key is appended at the end. -/
def mapSet {α : Type} : List (String × α) → String → α → List (String × α)
  | [], k, v => [(k, v)]
  | (k', v') :: rest, k, v =>
      if k' = k then (k, v) :: rest else (k', v') :: mapSet rest k v

/-- Insertion-ordered map lookup (JavaScript `Map.prototype.get`). -/
def lookupMap {α : Type} : List (String × α) → String → Option α
  | [], _ => none
  | (k, v) :: rest, u => if k = u then some v else lookupMap rest u

/-- The `for (const record of records) seen.set(record.detail_url, record)`
loop of `deduplicateByDetailUrl`, with explicit map state. -/
def dedupFold (m : List (String × NashvilleRentalRecord)) :
    List NashvilleRentalRecord → List (String × NashvilleRentalRecord)
  | [] => m
  | r :: rest => dedupFold (mapSet m r.detail_url r) rest

/-- `DatabaseMigrator.deduplicateByDetailUrl`: build a `Map` keyed by
`detail_url` (last write wins) and return `Array.from(seen.values())`. -/
def deduplicateByDetailUrl (records : List NashvilleRentalRecord) :
    List NashvilleRentalRecord :=
  (dedupFold [] records).map Prod.snd

/-! ## `ZillowFetcher.safePageNumber` (`src/lib/zillow/fetcher.ts`) -/

/-- `safePageNumber`: `Math.max(1, Math.floor(page))`. -/
def safePageNumber (page : ℚ) : ℤ := max 1 (jsFloor page)

/-! ## JavaScript values

Raw API records are arbitrary JSON-ish values; objects are insertion-ordered
association lists. -/

inductive JsValue where
  | vNull
  | vUndef
  | vBool (b : Bool)
  | vNum (q : ℚ)
  | vStr (s : String)
  | vArr (xs : List JsValue)
  | vObj (fields : List (String × JsValue))

/-- `Object.assign(target, source)`: set every key of `source` on `target`
in order. -/
def objAssign (target source : List (String × JsValue)) : List (String × JsValue) :=
  source.foldl (fun acc kv => mapSet acc kv.1 kv.2) target

/-! ## `ZillowFetcher.flattenMapping` -/

/-- The `for (const [key, value] of Object.entries(obj))` loop of
`flattenMapping`, with the object under construction as accumulator.  A value
recurses exactly when it is a truthy `object` that is not an array, i.e. a
`vObj` (JavaScript `null` has `typeof 'object'` but is falsy). -/
def flattenGo (pfx : String) (acc : List (String × JsValue)) :
    List (String × JsValue) → List (String × JsValue)
  | [] => acc
  | (k, v) :: rest =>
    let newKey := if pfx = "" then k else pfx ++ "__" ++ k
    match v with
    | .vObj inner => flattenGo pfx (objAssign acc (flattenGo newKey [] inner)) rest
    | _ => flattenGo pfx (mapSet acc newKey v) rest

/-- `ZillowFetcher.flattenMapping(obj, prefix = '')`. -/
def flattenMapping (obj : List (String × JsValue)) (pfx : String := "") :
    List (String × JsValue) :=
  flattenGo pfx [] obj

/-! ## `ZillowFetcher.fetchPage`

The network is an oracle giving the outcome of each HTTP attempt.  The model
returns the observable trace: the function's result, the number of requests
performed, and the waits (in seconds) inserted between attempts. -/

/-- A `ZillowAPIResponse` (`response.data`): either an object whose
`results` / `props` fields, when present as arrays, are modelled, or a bare
array. -/
inductive Payload where
  | obj (results : Option (List JsValue)) (props : Option (List JsValue))
      (totalPages : Option ℚ)
  | arr (xs : List JsValue)

/-- The `{ results: [] }` payload returned on HTTP 404. -/
def emptyResultsPayload : Payload := .obj (some []) none none

/-- Outcome of one HTTP attempt: a 2xx payload, an axios error carrying the
optional response status, or a non-axios exception. -/
inductive AttemptOutcome where
  | ok (payload : Payload)
  | axiosError (status : Option Nat)
  | otherError

/-- Result of `fetchPage`: payload (or the 404 empty payload), one of the
thrown errors, or `null` when the loop body never runs. -/
inductive FetchResult where
  | payload (p : Payload)
  | authError
  | rateLimitError
  | apiError (status : Option Nat)
  | otherThrown
  | noResult

/-- Observable trace of one `fetchPage` call. -/
structure FetchTrace where
  result : FetchResult
  requests : Nat
  waits : List Nat

/-- The retry loop of `fetchPage`, structurally recursive on the number of
remaining iterations (`remaining = retries - attempt + 1` at call sites).
Per attempt: a 404 axios error returns `{ results: [] }`; 401/403 throw an
authentication error; 429 waits `cooldown * attempt` seconds and retries if
`attempt < retries`, else throws a rate-limit error; any other axios error
retries with the same backoff, else throws an API error; non-axios errors are
rethrown. -/
def fetchPageGo (oracle : Nat → AttemptOutcome) (cooldown retries : Nat) :
    Nat → Nat → FetchTrace
  | 0, _ => ⟨.noResult, 0, []⟩
  | remaining + 1, attempt =>
    match oracle attempt with
    | .ok p => ⟨.payload p, 1, []⟩
    | .otherError => ⟨.otherThrown, 1, []⟩
    | .axiosError st =>
      if st = some 404 then ⟨.payload emptyResultsPayload, 1, []⟩
      else if st = some 401 ∨ st = some 403 then ⟨.authError, 1, []⟩
      else if st = some 429 then
        if attempt < retries then
          let rest := fetchPageGo oracle cooldown retries remaining (attempt + 1)
          ⟨rest.result, rest.requests + 1, cooldown * attempt :: rest.waits⟩
        else ⟨.rateLimitError, 1, []⟩
      else
        if attempt < retries then
          let rest := fetchPageGo oracle cooldown retries remaining (attempt + 1)
          ⟨rest.result, rest.requests + 1, cooldown * attempt :: rest.waits⟩
        else ⟨.apiError st, 1, []⟩

/-- `fetchPage` with the default `cooldown = 5` left symbolic: run the loop
`for (let attempt = 1; attempt <= retries; attempt++)`. -/
def fetchPage (oracle : Nat → AttemptOutcome) (cooldown retries : Nat) : FetchTrace :=
  fetchPageGo oracle cooldown retries retries 1

/-! ## `ZillowFetcher.extractResults` and `iteratePages` -/

/-- `extractResults(payload)`: `[]` on a falsy payload, else the `results`
array if present, else the `props` array, else the payload itself if it is an
array, else `[]`. -/
def extractResults : Option Payload → List JsValue
  | none => []
  | some (.obj (some rs) _ _) => rs
  | some (.obj none (some ps) _) => ps
  | some (.obj none none _) => []
  | some (.arr xs) => xs

/-- The `payload.totalPages && page >= payload.totalPages` test (`0` and a
missing field are falsy). -/
def totalReached (p : Payload) (page : Nat) : Bool :=
  match p with
  | .obj _ _ (some t) => decide (t ≠ 0 ∧ t ≤ (page : ℚ))
  | _ => false

/-- Observable trace of `iteratePages`: the yielded batches, the pages
fetched, the inter-page waits (ms), and the error aborting the generator when
the page fetch threw. -/
structure IterTrace where
  yields : List (List JsValue)
  fetchedPages : List Nat
  waits : List Nat
  thrown : Option FetchResult

/-- The `for (let page = 1; page <= maxPages; page++)` loop of
`iteratePages`, structurally recursive on the remaining page budget.  Per
page: fetch (a thrown fetch error aborts); a `null` payload breaks; empty
extracted results break; otherwise the batch is yielded, the inter-page wait
runs when `page < maxPages`, and the loop breaks after the yield once
`totalPages` is reached. -/
def iterGo (oracle : Nat → FetchResult) (maxPages rateLimitWait : Nat) :
    Nat → Nat → IterTrace
  | 0, _ => ⟨[], [], [], none⟩
  | remaining + 1, page =>
    match oracle page with
    | .noResult => ⟨[], [page], [], none⟩
    | .payload p =>
      let results := extractResults (some p)
      if results.isEmpty then ⟨[], [page], [], none⟩
      else
        let ws := if page < maxPages then [rateLimitWait] else []
        if totalReached p page then ⟨[results], [page], ws, none⟩
        else
          let rest := iterGo oracle maxPages rateLimitWait remaining (page + 1)
          ⟨results :: rest.yields, page :: rest.fetchedPages, ws ++ rest.waits, rest.thrown⟩
    | e => ⟨[], [page], [], some e⟩

/-- `iteratePages(params, maxPages, rateLimitWait)` over a fetch oracle. -/
def iteratePages (oracle : Nat → FetchResult) (maxPages rateLimitWait : Nat) :
    IterTrace :=
  iterGo oracle maxPages rateLimitWait maxPages 1

/-! ## `ZillowFetcher.augmentWithUnits` and `recordsToProperties`

`augmentWithUnits` performs `unit.price` property accesses on arbitrary array
elements: on `null`/`undefined` elements JavaScript throws a `TypeError`,
which propagates out of `recordsToProperties` (the `try` only guards the Zod
parse).  The models therefore return `Except`. -/

/-- JavaScript property access `u.k` compared against `undefined`:
throws on `null`/`undefined`, yields nothing on primitives or a
present-but-`undefined` field. -/
def unitGet (u : JsValue) (k : String) : Except String (Option JsValue) :=
  match u with
  | .vNull => .error "TypeError"
  | .vUndef => .error "TypeError"
  | .vObj fields =>
    match lookupMap fields k with
    | some .vUndef => .ok none
    | o => .ok o
  | _ => .ok none

/-- The `units.forEach((unit, index) => ...)` loop of `augmentWithUnits`:
set `price_i`, `beds_i`, `bathrooms_i` (1-based `i`) for each defined unit
field. -/
def augmentGo (acc : List (String × JsValue)) (idx : Nat) :
    List JsValue → Except String (List (String × JsValue))
  | [] => .ok acc
  | u :: rest => do
    let unitIndex := idx + 1
    let pr ← unitGet u "price"
    let acc1 := match pr with
      | some v => mapSet acc ("price_" ++ toString unitIndex) v
      | none => acc
    let bd ← unitGet u "beds"
    let acc2 := match bd with
      | some v => mapSet acc1 ("beds_" ++ toString unitIndex) v
      | none => acc1
    let ba ← unitGet u "bathrooms"
    let acc3 := match ba with
      | some v => mapSet acc2 ("bathrooms_" ++ toString unitIndex) v
      | none => acc2
    augmentGo acc3 (idx + 1) rest

/-- `ZillowFetcher.augmentWithUnits(baseRecord, units)`: copy the base record
and add the indexed unit fields. -/
def augmentWithUnits (baseRecord : List (String × JsValue)) (units : List JsValue) :
    Except String (List (String × JsValue)) :=
  augmentGo baseRecord 0 units

/-! ### The Zod schemas (`ZillowPropertySchema`, `UnitSchema`) -/

/-- `z.number().nullable().optional()`: absent / `undefined` / `null` parse to
`none`, a number to `some`, anything else fails. -/
def parseNumField (m : List (String × JsValue)) (k : String) : Option (Option ℚ) :=
  match lookupMap m k with
  | none => some none
  | some .vUndef => some none
  | some .vNull => some none
  | some (.vNum q) => some (some q)
  | some _ => none

/-- `z.string().nullable().optional()`. -/
def parseStrField (m : List (String × JsValue)) (k : String) : Option (Option String) :=
  match lookupMap m k with
  | none => some none
  | some .vUndef => some none
  | some .vNull => some none
  | some (.vStr s) => some (some s)
  | some _ => none

/-- `z.number().optional()` inside `UnitSchema`: `null` is rejected. -/
def parseUnitNumField (fields : List (String × JsValue)) (k : String) :
    Option (Option ℚ) :=
  match lookupMap fields k with
  | none => some none
  | some .vUndef => some none
  | some (.vNum q) => some (some q)
  | some _ => none

/-- `UnitSchema.parse`: a plain object with optional numeric `price`, `beds`,
`bathrooms`. -/
def parseUnit : JsValue → Option RentalUnit
  | .vObj fields => do
    let pr ← parseUnitNumField fields "price"
    let bd ← parseUnitNumField fields "beds"
    let ba ← parseUnitNumField fields "bathrooms"
    some { price := pr, beds := bd, bathrooms := ba }
  | _ => none

/-- `z.array(UnitSchema).nullable().optional()` for the `units` field. -/
def parseUnitsField (m : List (String × JsValue)) :
    Option (Option (List RentalUnit)) :=
  match lookupMap m "units" with
  | none => some none
  | some .vUndef => some none
  | some .vNull => some none
  | some (.vArr us) => (us.mapM parseUnit).map some
  | some _ => none

/-- `ZillowPropertySchema.parse`: `detailUrl` must be a string; every other
field is nullable/optional; unknown keys are stripped.  `none` models the
thrown `ZodError`. -/
def parseZillowProperty (m : List (String × JsValue)) : Option ZillowProperty := do
  let lon ← parseNumField m "longitude"
  let lat ← parseNumField m "latitude"
  let du ← match lookupMap m "detailUrl" with
    | some (.vStr s) => some s
    | _ => none
  let pr ← parseNumField m "price"
  let bd ← parseNumField m "bedrooms"
  let ba ← parseNumField m "bathrooms"
  let la ← parseNumField m "livingArea"
  let pt ← parseStrField m "propertyType"
  let ad ← parseStrField m "address"
  let un ← parseUnitsField m
  some { longitude := lon, latitude := lat, detailUrl := du, price := pr,
         bedrooms := bd, bathrooms := ba, livingArea := la, propertyType := pt,
         address := ad, units := un }

/-- The loop body of `recordsToProperties` for one raw record: flatten, merge
the indexed unit fields and re-attach raw `units` when it is a non-empty
array, then Zod-parse (`.ok none` = parse failed, record dropped with a
logged warning). -/
def toPropertyStep (record : List (String × JsValue)) :
    Except String (Option ZillowProperty) := do
  let flattened := flattenMapping record
  let flattened2 ←
    match lookupMap record "units" with
    | some (.vArr us) =>
      if us.isEmpty then pure flattened
      else do
        let aug ← augmentWithUnits flattened us
        pure (mapSet (objAssign flattened aug) "units" (.vArr us))
    | _ => pure flattened
  pure (parseZillowProperty flattened2)

/-- `ZillowFetcher.recordsToProperties(records)`: process records in order,
keeping the parses that succeed. -/
def recordsToProperties : List (List (String × JsValue)) →
    Except String (List ZillowProperty)
  | [] => .ok []
  | record :: rest => do
    let po ← toPropertyStep record
    let ps ← recordsToProperties rest
    match po with
    | some p => pure (p :: ps)
    | none => pure ps

/-! ## Specification-side devices -/

/-- The distinct elements of a list in order of first occurrence. -/
def firstSeen (us : List String) : List String :=
  us.foldl (fun ks u => if u ∈ ks then ks else ks ++ [u]) []

/-- The last record of `records` carrying detail URL `u`, if any. -/
def findLastByUrl (records : List NashvilleRentalRecord) (u : String) :
    Option NashvilleRentalRecord :=
  records.foldl (fun acc r => if r.detail_url = u then some r else acc) none

/-- Concrete records used in closed instances: two share a detail URL. -/
def recU1 : NashvilleRentalRecord :=
  { record_id := "K1", detail_url := "https://u", longitude := none,
    latitude := none, address := none, price := some 100, bedrooms := none,
    bathrooms := none, living_area := none, property_type := none,
    units := none, ingestion_date := "2024-01-01" }

def recW : NashvilleRentalRecord :=
  { recU1 with record_id := "K2", detail_url := "https://w", price := some 200 }

def recU2 : NashvilleRentalRecord :=
  { recU1 with record_id := "K3", detail_url := "https://u", price := some 300 }

/-- Concrete raw records: two valid, one lacking `detailUrl`. -/
def rawGood1 : List (String × JsValue) :=
  [("detailUrl", .vStr "https://a"), ("price", .vNum 1500)]

def rawNoUrl : List (String × JsValue) :=
  [("price", .vNum 1200)]

def rawGood2 : List (String × JsValue) :=
  [("detailUrl", .vStr "https://b")]

/-! # Theorems -/

/-! ## Bridge lemmas -/

theorem jsFloor_eq_floor (q : ℚ) : jsFloor q = ⌊q⌋ := (Rat.floor_def).symm

theorem jsRound_eq_floor (q : ℚ) : jsRound q = ⌊q + 1/2⌋ := by
  rw [jsRound, jsFloor_eq_floor]

/-! ## C1 — price conversion to minor units -/

/-- Claim C1 counterexample: the claim quantifies over all prices, but a zero
price is stored as `null` (JavaScript `0` is falsy), not as
`round(0 * 100) = 0`. -/
theorem C1_zero_price_counterexample :
    ¬ ((propertyToRecord { detailUrl := "https://ex", price := some 0 } "2024-01-01").price
        = some (jsRound ((0 : ℚ) * 100))) := by
  simp [propertyToRecord]

/-- Claim C1 (amended): for every non-zero price `p`, `propertyToRecord`
stores `round(p * 100)` in minor units; a null (absent) price stays null;
`2000.50 ↦ 200050` and `1599.99 ↦ 159999`. -/
theorem C1_price_to_minor_units :
    (∀ (property : ZillowProperty) (d : String) (p : ℚ),
        property.price = some p → p ≠ 0 →
        (propertyToRecord property d).price = some (jsRound (p * 100)))
    ∧ (∀ (property : ZillowProperty) (d : String),
        property.price = none → (propertyToRecord property d).price = none)
    ∧ jsRound ((2000 + 50 / 100 : ℚ) * 100) = 200050
    ∧ jsRound ((1599 + 99 / 100 : ℚ) * 100) = 159999 := by
  refine ⟨?_, ?_, ?_, ?_⟩
  · intro property d p hp hz
    simp [propertyToRecord, hp, hz]
  · intro property d hp
    simp [propertyToRecord, hp]
  · rw [jsRound_eq_floor]; norm_num
  · rw [jsRound_eq_floor]; norm_num

/-- Witness for C1: a concrete property priced 2000.50 is stored as 200050. -/
theorem C1_price_to_minor_units_witness :
    (propertyToRecord { detailUrl := "https://ex", price := some (2000 + 50 / 100) }
        "2024-01-01").price = some 200050 := by
  have h := C1_price_to_minor_units.1
    { detailUrl := "https://ex", price := some (2000 + 50 / 100) } "2024-01-01"
    (2000 + 50 / 100) rfl (by norm_num)
  rw [h, jsRound_eq_floor]
  norm_num

/-! ## C5 — page-number clamping -/

/-- Claim C5 counterexample: the non-integer page `2.7` is sent as `2`, not
coerced to `1` as the claim states for non-integer pages. -/
theorem C5_noninteger_counterexample :
    safePageNumber (27 / 10) = 2
    ∧ (¬ ∃ n : ℤ, (27 / 10 : ℚ) = n)
    ∧ (2 : ℤ) ≠ 1 := by
  refine ⟨?_, ?_, by decide⟩
  · rw [safePageNumber, jsFloor_eq_floor]
    norm_num
  · rintro ⟨n, h⟩
    have h27 : (27 : ℚ) = 10 * n := by
      field_simp at h
      linarith
    have : (27 : ℤ) = 10 * n := by exact_mod_cast h27
    omega

/-- Claim C5 (amended): the page sent upstream is
`Math.max(1, Math.floor(page))`: any page `≤ 0` is coerced to `1`, and a
non-integer page is floored (minimum 1); pages `≥ 1` map to their floor, not
to `1`. -/
theorem C5_page_clamping :
    (∀ q : ℚ, safePageNumber q = max 1 ⌊q⌋)
    ∧ (∀ q : ℚ, q ≤ 0 → safePageNumber q = 1)
    ∧ (∀ q : ℚ, 1 ≤ q → safePageNumber q = ⌊q⌋) := by
  refine ⟨?_, ?_, ?_⟩
  · intro q
    rw [safePageNumber, jsFloor_eq_floor]
  · intro q hq
    have h0 : ⌊q⌋ ≤ 0 := by
      calc ⌊q⌋ ≤ ⌊(0 : ℚ)⌋ := Int.floor_le_floor hq
      _ = 0 := Int.floor_zero
    rw [safePageNumber, jsFloor_eq_floor]
    omega
  · intro q hq
    have h1 : (1 : ℤ) ≤ ⌊q⌋ := Int.le_floor.mpr (by exact_mod_cast hq)
    rw [safePageNumber, jsFloor_eq_floor]
    omega

/-- Witness for C5: page `0` is coerced to `1`. -/
theorem C5_page_clamping_witness : safePageNumber 0 = 1 :=
  C5_page_clamping.2.1 0 le_rfl

/-! ## C9 — deterministic record id -/

/-- Claim C9: `generateRecordId` is a pure function of the detail URL alone
(so repeated calls and properties differing in every other field agree); the
empty string is a valid input with a well-defined uppercase-hex digest
(SHA-256 of the empty seed); distinct URLs yield distinct hashes (witnessed
on a concrete pair; genuine collision resistance is probabilistic). -/
theorem C9_generate_record_id :
    (∀ p q : ZillowProperty, p.detailUrl = q.detailUrl →
        generateRecordId p = generateRecordId q)
    ∧ generateRecordId { detailUrl := "" } =
        "E3B0C44298FC1C149AFBF4C8996FB92427AE41E4649B934CA495991B7852B855"
    ∧ generateRecordId { detailUrl := "https://www.zillow.com/a" } ≠
        generateRecordId { detailUrl := "https://www.zillow.com/b" } := by
  refine ⟨?_, ?_, ?_⟩
  · intro p q h
    simp [generateRecordId, h]
  · set_option maxRecDepth 16000 in decide
  · set_option maxRecDepth 16000 in decide

/-- Witness for C9: two properties sharing a detail URL but differing in every
other supplied field receive the identical key. -/
theorem C9_generate_record_id_witness :
    generateRecordId { detailUrl := "https://www.zillow.com/x", price := some 1 } =
    generateRecordId { detailUrl := "https://www.zillow.com/x", bedrooms := some 3 } :=
  C9_generate_record_id.1 _ _ rfl

/-! ## C3 — HTTP 429 retry with linear backoff -/

/-- Claim C3: a 429 on attempt `n` with attempts remaining waits
`cooldown * n` seconds and retries; with `retries = 4`, a 429 on attempt 1
followed by success on attempt 2 returns that payload after one wait of
`cooldown * 1`; a 429 on all 4 attempts performs exactly 4 requests and
raises the rate-limit error after the 4th. -/
theorem C3_rate_limit_retry :
    (∀ (oracle : Nat → AttemptOutcome) (cooldown retries remaining attempt : Nat),
        oracle attempt = .axiosError (some 429) → attempt < retries →
        fetchPageGo oracle cooldown retries (remaining + 1) attempt =
          ⟨(fetchPageGo oracle cooldown retries remaining (attempt + 1)).result,
           (fetchPageGo oracle cooldown retries remaining (attempt + 1)).requests + 1,
           cooldown * attempt ::
             (fetchPageGo oracle cooldown retries remaining (attempt + 1)).waits⟩)
    ∧ (∀ (oracle : Nat → AttemptOutcome) (cooldown : Nat) (p : Payload),
        oracle 1 = .axiosError (some 429) → oracle 2 = .ok p →
        fetchPage oracle cooldown 4 = ⟨.payload p, 2, [cooldown * 1]⟩)
    ∧ (∀ (oracle : Nat → AttemptOutcome) (cooldown : Nat),
        (∀ n, 1 ≤ n → n ≤ 4 → oracle n = .axiosError (some 429)) →
        fetchPage oracle cooldown 4 =
          ⟨.rateLimitError, 4, [cooldown * 1, cooldown * 2, cooldown * 3]⟩) := by
  refine ⟨?_, ?_, ?_⟩
  · intro oracle cooldown retries remaining attempt h1 h2
    simp [fetchPageGo, h1, h2]
  · intro oracle cooldown p h1 h2
    simp [fetchPage, fetchPageGo, h1, h2]
  · intro oracle cooldown h
    have h1 := h 1 (by omega) (by omega)
    have h2 := h 2 (by omega) (by omega)
    have h3 := h 3 (by omega) (by omega)
    have h4 := h 4 (by omega) (by omega)
    simp [fetchPage, fetchPageGo, h1, h2, h3, h4]

/-- Witness for C3: a concrete oracle that rate-limits attempt 1 and succeeds
on attempt 2, with cooldown 7. -/
theorem C3_rate_limit_retry_witness :
    fetchPage
      (fun n => if n = 1 then .axiosError (some 429) else .ok emptyResultsPayload)
      7 4 = ⟨.payload emptyResultsPayload, 2, [7 * 1]⟩ :=
  C3_rate_limit_retry.2.1
    (fun n => if n = 1 then .axiosError (some 429) else .ok emptyResultsPayload)
    7 emptyResultsPayload rfl rfl

/-! ## C6 — 404 / 401 / 403 dispatch -/

/-- Claim C6: on any attempt with any number of attempts remaining, a 404
immediately returns the `{ results: [] }` payload (one request, no wait, no
error), while a 401 or 403 immediately raises the authentication error (one
request, no wait, no retry). -/
theorem C6_status_dispatch :
    (∀ (oracle : Nat → AttemptOutcome) (cooldown retries remaining attempt : Nat),
        oracle attempt = .axiosError (some 404) →
        fetchPageGo oracle cooldown retries (remaining + 1) attempt =
          ⟨.payload emptyResultsPayload, 1, []⟩)
    ∧ (∀ (oracle : Nat → AttemptOutcome) (cooldown retries remaining attempt : Nat),
        oracle attempt = .axiosError (some 401) →
        fetchPageGo oracle cooldown retries (remaining + 1) attempt =
          ⟨.authError, 1, []⟩)
    ∧ (∀ (oracle : Nat → AttemptOutcome) (cooldown retries remaining attempt : Nat),
        oracle attempt = .axiosError (some 403) →
        fetchPageGo oracle cooldown retries (remaining + 1) attempt =
          ⟨.authError, 1, []⟩) := by
  refine ⟨?_, ?_, ?_⟩ <;>
    · intro oracle cooldown retries remaining attempt h
      simp [fetchPageGo, h]

/-- Witness for C6: a 404 on the very first of 4 attempts returns the empty
payload at once. -/
theorem C6_status_dispatch_witness :
    fetchPageGo (fun _ => .axiosError (some 404)) 5 4 (3 + 1) 1 =
      ⟨.payload emptyResultsPayload, 1, []⟩ :=
  C6_status_dispatch.1 (fun _ => .axiosError (some 404)) 5 4 3 1 rfl

/-! ## C4 — page iteration -/

/-- Claim C4: iteration stops without yielding when the fetch returns no
payload or the extracted results are empty; once `totalPages` is reached the
batch is still yielded and iteration stops; over a 3-page API whose page 3 is
empty, exactly two batches are yielded and the page-3 fetch occurs. -/
theorem C4_iterate_pages :
    (∀ (oracle : Nat → FetchResult) (maxPages w remaining page : Nat),
        oracle page = .noResult →
        iterGo oracle maxPages w (remaining + 1) page = ⟨[], [page], [], none⟩)
    ∧ (∀ (oracle : Nat → FetchResult) (maxPages w remaining page : Nat) (p : Payload),
        oracle page = .payload p → extractResults (some p) = [] →
        iterGo oracle maxPages w (remaining + 1) page = ⟨[], [page], [], none⟩)
    ∧ (∀ (oracle : Nat → FetchResult) (maxPages w remaining page : Nat) (p : Payload),
        oracle page = .payload p → extractResults (some p) ≠ [] →
        totalReached p page = true →
        (iterGo oracle maxPages w (remaining + 1) page).yields =
          [extractResults (some p)])
    ∧ (∀ r1 r2 : JsValue,
        iteratePages
          (fun page => .payload (.obj
            (some (if page = 1 then [r1] else if page = 2 then [r2] else []))
            none (some 3)))
          MAX_PAGES RATE_LIMIT_WAIT_MS =
          ⟨[[r1], [r2]], [1, 2, 3], [RATE_LIMIT_WAIT_MS, RATE_LIMIT_WAIT_MS], none⟩) := by
  refine ⟨?_, ?_, ?_, ?_⟩
  · intro oracle maxPages w remaining page h
    simp [iterGo, h]
  · intro oracle maxPages w remaining page p h1 h2
    simp [iterGo, h1, h2]
  · intro oracle maxPages w remaining page p h1 h2 h3
    simp [iterGo, h1, h2, h3]
  · intro r1 r2
    simp only [iteratePages, iterGo, MAX_PAGES, RATE_LIMIT_WAIT_MS, extractResults,
      totalReached, emptyResultsPayload]
    norm_num

/-- Witness for C4: a fetch with no payload on page 1 stops the iteration
with no batch yielded. -/
theorem C4_iterate_pages_witness :
    iterGo (fun _ => .noResult) 10 5000 (9 + 1) 1 = ⟨[], [1], [], none⟩ :=
  C4_iterate_pages.1 (fun _ => .noResult) 10 5000 9 1 rfl

/-! ## Association-list map lemmas (shared by C2 and C10) -/

theorem lookupMap_mapSet {α : Type} (m : List (String × α)) (k u : String) (v : α) :
    lookupMap (mapSet m k v) u = if k = u then some v else lookupMap m u := by
  induction m with
  | nil =>
    by_cases h : k = u <;> simp [mapSet, lookupMap, h]
  | cons q rest ih =>
    obtain ⟨k', v'⟩ := q
    by_cases hk : k' = k
    · subst hk
      by_cases hu : k' = u <;> simp [mapSet, lookupMap, hu]
    · simp only [mapSet, if_neg hk, lookupMap, ih]
      split_ifs <;> simp_all

theorem keys_mapSet {α : Type} (m : List (String × α)) (k : String) (v : α) :
    (mapSet m k v).map Prod.fst =
      if k ∈ m.map Prod.fst then m.map Prod.fst else m.map Prod.fst ++ [k] := by
  induction m with
  | nil => simp [mapSet]
  | cons q rest ih =>
    obtain ⟨k', v'⟩ := q
    by_cases hk : k' = k
    · subst hk
      simp [mapSet]
    · have hk' : k ≠ k' := fun h => hk h.symm
      simp only [mapSet, if_neg hk, List.map_cons, ih]
      by_cases hm : k ∈ rest.map Prod.fst <;> simp [hm, hk']

theorem mem_mapSet {α : Type} {m : List (String × α)} {k : String} {v : α}
    {p : String × α} (hp : p ∈ mapSet m k v) : p ∈ m ∨ p = (k, v) := by
  induction m with
  | nil =>
    simp [mapSet] at hp
    exact Or.inr hp
  | cons q rest ih =>
    obtain ⟨k', v'⟩ := q
    by_cases hk : k' = k
    · subst hk
      rw [mapSet, if_pos rfl] at hp
      rcases List.mem_cons.mp hp with h | h
      · exact Or.inr h
      · exact Or.inl (List.mem_cons_of_mem _ h)
    · rw [mapSet, if_neg hk] at hp
      rcases List.mem_cons.mp hp with h | h
      · exact Or.inl (by simp [h])
      · rcases ih h with h2 | h2
        · exact Or.inl (List.mem_cons_of_mem _ h2)
        · exact Or.inr h2

theorem lookupMap_of_mem {α : Type} :
    ∀ {m : List (String × α)}, (m.map Prod.fst).Nodup →
      ∀ {k : String} {v : α}, (k, v) ∈ m → lookupMap m k = some v := by
  intro m
  induction m with
  | nil => intro _ k v h; simp at h
  | cons q rest ih =>
    obtain ⟨k', v'⟩ := q
    intro hnd k v hm
    simp only [List.map_cons, List.nodup_cons] at hnd
    rcases List.mem_cons.mp hm with h | h
    · cases h
      simp [lookupMap]
    · have hne : k' ≠ k := by
        intro he
        exact hnd.1 (by rw [he]; exact List.mem_map_of_mem Prod.fst h)
      simp [lookupMap, hne, ih hnd.2 h]

/-! ## `dedupFold` invariants -/

theorem dedupFold_entry_url :
    ∀ (records : List NashvilleRentalRecord) (m : List (String × NashvilleRentalRecord)),
      (∀ p ∈ m, (p.2 : NashvilleRentalRecord).detail_url = p.1) →
      ∀ p ∈ dedupFold m records, (p.2 : NashvilleRentalRecord).detail_url = p.1 := by
  intro records
  induction records with
  | nil => intro m hm; exact hm
  | cons r rest ih =>
    intro m hm p hp
    refine ih (mapSet m r.detail_url r) ?_ p hp
    intro q hq
    rcases mem_mapSet hq with h | h
    · exact hm q h
    · subst h; rfl

theorem keys_dedupFold :
    ∀ (records : List NashvilleRentalRecord) (m : List (String × NashvilleRentalRecord)),
      (dedupFold m records).map Prod.fst =
        (records.map (fun r => r.detail_url)).foldl
          (fun ks u => if u ∈ ks then ks else ks ++ [u]) (m.map Prod.fst) := by
  intro records
  induction records with
  | nil => intro m; rfl
  | cons r rest ih =>
    intro m
    simp only [dedupFold, List.map_cons, List.foldl_cons, ih, keys_mapSet]

theorem lookup_dedupFold :
    ∀ (records : List NashvilleRentalRecord) (m : List (String × NashvilleRentalRecord))
      (u : String),
      lookupMap (dedupFold m records) u =
        records.foldl (fun acc r => if r.detail_url = u then some r else acc)
          (lookupMap m u) := by
  intro records
  induction records with
  | nil => intro m u; rfl
  | cons r rest ih =>
    intro m u
    simp only [dedupFold, List.foldl_cons, ih, lookupMap_mapSet]

/-! ## First-seen fold lemmas -/

theorem foldIns_nodup :
    ∀ (us : List String) (ks : List String), ks.Nodup →
      (us.foldl (fun ks u => if u ∈ ks then ks else ks ++ [u]) ks).Nodup := by
  intro us
  induction us with
  | nil => intro ks h; exact h
  | cons u rest ih =>
    intro ks h
    simp only [List.foldl_cons]
    by_cases hu : u ∈ ks
    · simpa [hu] using ih ks h
    · have : (ks ++ [u]).Nodup := by simp [List.nodup_append, h, hu]
      simpa [hu] using ih (ks ++ [u]) this

theorem mem_foldIns :
    ∀ (us : List String) (ks : List String) (u : String),
      u ∈ us.foldl (fun ks u => if u ∈ ks then ks else ks ++ [u]) ks ↔
        u ∈ ks ∨ u ∈ us := by
  intro us
  induction us with
  | nil => intro ks u; simp
  | cons w rest ih =>
    intro ks u
    simp only [List.foldl_cons, List.mem_cons]
    by_cases hw : w ∈ ks
    · rw [if_pos hw, ih]
      constructor
      · rintro (h | h)
        · exact Or.inl h
        · exact Or.inr (Or.inr h)
      · rintro (h | h | h)
        · exact Or.inl h
        · exact Or.inl (h ▸ hw)
        · exact Or.inr h
    · rw [if_neg hw, ih]
      simp only [List.mem_append, List.mem_singleton]
      tauto

theorem foldIns_of_nodup :
    ∀ (us : List String) (ks : List String), us.Nodup → (∀ u ∈ us, u ∉ ks) →
      us.foldl (fun ks u => if u ∈ ks then ks else ks ++ [u]) ks = ks ++ us := by
  intro us
  induction us with
  | nil => intro ks _ _; simp
  | cons u rest ih =>
    intro ks hnd hdisj
    have hu : u ∉ ks := hdisj u (List.mem_cons_self u rest)
    have hdisj2 : ∀ w ∈ rest, w ∉ ks ++ [u] := by
      intro w hw
      simp only [List.mem_append, List.mem_singleton]
      rintro (h | h)
      · exact hdisj w (List.mem_cons_of_mem _ hw) h
      · exact (List.nodup_cons.mp hnd).1 (h ▸ hw)
    simp only [List.foldl_cons, if_neg hu]
    rw [ih (ks ++ [u]) (List.nodup_cons.mp hnd).2 hdisj2]
    simp

/-- The detail URLs of the deduplicated output are exactly the keys of the
backing map. -/
theorem dedup_urls_eq_keys (records : List NashvilleRentalRecord) :
    (deduplicateByDetailUrl records).map (fun r => r.detail_url) =
      (dedupFold [] records).map Prod.fst := by
  rw [deduplicateByDetailUrl, List.map_map]
  exact List.map_congr_left fun p hp =>
    dedupFold_entry_url records [] (by simp) p hp

/-! ## C2 — deduplication by detail URL -/

/-- Claim C2: `deduplicateByDetailUrl` keeps exactly one record per distinct
detail URL (output URLs are duplicate-free and are exactly the input's URLs),
each kept record is the last input record with its URL, inputs without
duplicate URLs keep their length, and empty input gives empty output. -/
theorem C2_deduplicate :
    deduplicateByDetailUrl [] = []
    ∧ (∀ records,
        ((deduplicateByDetailUrl records).map (fun r => r.detail_url)).Nodup)
    ∧ (∀ records u,
        u ∈ (deduplicateByDetailUrl records).map (fun r => r.detail_url) ↔
          u ∈ records.map (fun r => r.detail_url))
    ∧ (∀ records r, r ∈ deduplicateByDetailUrl records →
        findLastByUrl records r.detail_url = some r)
    ∧ (∀ records, (records.map (fun r => r.detail_url)).Nodup →
        (deduplicateByDetailUrl records).length = records.length) := by
  refine ⟨rfl, ?_, ?_, ?_, ?_⟩
  · intro records
    rw [dedup_urls_eq_keys, keys_dedupFold]
    exact foldIns_nodup _ _ (by simp)
  · intro records u
    rw [dedup_urls_eq_keys, keys_dedupFold]
    simpa using mem_foldIns (records.map fun r => r.detail_url) [] u
  · intro records r hr
    obtain ⟨p, hp, hps⟩ := List.mem_map.mp hr
    have hurl : p.2.detail_url = p.1 :=
      dedupFold_entry_url records [] (by simp) p hp
    have hnd : ((dedupFold [] records).map Prod.fst).Nodup := by
      rw [keys_dedupFold]
      exact foldIns_nodup _ _ (by simp)
    have hlk : lookupMap (dedupFold [] records) p.1 = some p.2 :=
      lookupMap_of_mem hnd (by exact hp)
    rw [lookup_dedupFold] at hlk
    subst hps
    rw [hurl]
    exact hlk
  · intro records hnd
    have hlen : (deduplicateByDetailUrl records).length =
        ((deduplicateByDetailUrl records).map (fun r => r.detail_url)).length := by
      simp
    rw [hlen, dedup_urls_eq_keys, keys_dedupFold]
    simp only [List.map_nil]
    rw [foldIns_of_nodup _ [] hnd (by simp)]
    simp

/-- Witness for C2: on a concrete input where `recU1` and `recU2` share a
URL, the kept record for that URL is the later `recU2`. -/
theorem C2_deduplicate_witness :
    findLastByUrl [recU1, recW, recU2] recU2.detail_url = some recU2 :=
  C2_deduplicate.2.2.2.1 [recU1, recW, recU2] recU2 (by decide)

/-! ## C10 — output order of deduplication -/

/-- Claim C10: the deduplicated output lists URLs in first-occurrence order
of the input (re-setting an existing key of a JavaScript `Map` keeps its
insertion position), the winning last record occupying the position where its
URL first appeared: on `[recU1, recW, recU2]` with `recU1`/`recU2` sharing a
URL, the output is `[recU2, recW]`. -/
theorem C10_dedup_first_seen_order :
    (∀ records, (deduplicateByDetailUrl records).map (fun r => r.detail_url) =
        firstSeen (records.map (fun r => r.detail_url)))
    ∧ deduplicateByDetailUrl [recU1, recW, recU2] = [recU2, recW] := by
  constructor
  · intro records
    rw [dedup_urls_eq_keys, keys_dedupFold]
    rfl
  · decide

/-! ## C7 — flattening of nested mappings -/

theorem mapSet_append {α : Type} :
    ∀ (m : List (String × α)) (k : String) (v : α), k ∉ m.map Prod.fst →
      mapSet m k v = m ++ [(k, v)] := by
  intro m
  induction m with
  | nil => intro k v _; rfl
  | cons q rest ih =>
    obtain ⟨k', v'⟩ := q
    intro k v hk
    simp only [List.map_cons, List.mem_cons] at hk
    push_neg at hk
    rw [mapSet, if_neg (fun h => hk.1 h.symm), ih k v hk.2]
    simp

/-- Flattening an already-flat object (no nested mapping values, unique keys)
appends its entries unchanged. -/
theorem flattenGo_flat :
    ∀ (obj acc : List (String × JsValue)),
      (∀ kv ∈ obj, ∀ inner, kv.2 ≠ JsValue.vObj inner) →
      (obj.map Prod.fst).Nodup →
      (∀ k ∈ obj.map Prod.fst, k ∉ acc.map Prod.fst) →
      flattenGo "" acc obj = acc ++ obj := by
  intro obj
  induction obj with
  | nil => intro acc _ _ _; simp [flattenGo]
  | cons kv rest ih =>
    obtain ⟨k, v⟩ := kv
    intro acc hval hnd hdisj
    have hkacc : k ∉ acc.map Prod.fst := hdisj k (by simp)
    have hstep : flattenGo "" acc ((k, v) :: rest) = flattenGo "" (mapSet acc k v) rest := by
      have hv := hval (k, v) (List.mem_cons_self _ _)
      cases v <;> first
        | exact absurd rfl (hv _)
        | simp [flattenGo]
    rw [hstep, mapSet_append acc k v hkacc,
      ih (acc ++ [(k, v)]) (fun kv h => hval kv (List.mem_cons_of_mem _ h))
        (List.nodup_cons.mp (by simpa using hnd)).2 ?_]
    · simp
    · intro k' hk'
      simp only [List.map_append, List.mem_append, List.map_cons, List.map_nil,
        List.mem_singleton, not_or]
      constructor
      · exact hdisj k' (List.mem_cons_of_mem _ hk')
      · simp only [List.map_cons, List.nodup_cons] at hnd
        intro he
        exact hnd.1 (he ▸ hk')

/-- Claim C7: `flattenMapping` joins nested keys with `__` and recurses into
nested mappings, assigns other values (arrays included) directly, and never
descends into arrays: a flat object (array values included) flattens to
itself, and the two specification examples evaluate as stated. -/
theorem C7_flatten_mapping :
    (∀ obj : List (String × JsValue),
        (∀ kv ∈ obj, ∀ inner, kv.2 ≠ JsValue.vObj inner) →
        (obj.map Prod.fst).Nodup →
        flattenMapping obj = obj)
    ∧ flattenMapping
        [("address", .vObj [("street", .vStr "123 Main St")]), ("price", .vNum 2000)]
      = [("address__street", .vStr "123 Main St"), ("price", .vNum 2000)]
    ∧ flattenMapping [("tags", .vArr [.vStr "a", .vStr "b"])]
      = [("tags", .vArr [.vStr "a", .vStr "b"])] := by
  refine ⟨?_, ?_, ?_⟩
  · intro obj hval hnd
    rw [flattenMapping]
    simpa using flattenGo_flat obj [] hval hnd (by simp)
  · simp [flattenMapping, flattenGo, objAssign, mapSet]
  · simp [flattenMapping, flattenGo, objAssign, mapSet]

/-- Witness for C7: a concrete flat record with an array value flattens to
itself. -/
theorem C7_flatten_mapping_witness :
    flattenMapping [("tags", JsValue.vArr [JsValue.vStr "a"]), ("price", JsValue.vNum 7)]
      = [("tags", JsValue.vArr [JsValue.vStr "a"]), ("price", JsValue.vNum 7)] :=
  C7_flatten_mapping.1 _
    (by
      intro kv hkv inner
      simp only [List.mem_cons, List.not_mem_nil, or_false] at hkv
      rcases hkv with h | h <;> subst h <;> simp)
    (by simp)

/-! ## C8 — validation collects successes in order -/

theorem exceptBind_ok {ε α β : Type} (a : α) (f : α → Except ε β) :
    (Except.ok a >>= f) = f a := rfl

theorem exceptBind_error {ε α β : Type} (e : ε) (f : α → Except ε β) :
    ((Except.error e : Except ε α) >>= f) = Except.error e := rfl

theorem exceptPure {ε α : Type} (a : α) : (pure a : Except ε α) = Except.ok a := rfl

/-- Evaluation of the loop body on the first concrete valid record. -/
theorem toPropertyStep_rawGood1 :
    toPropertyStep rawGood1 =
      .ok (some { detailUrl := "https://a", price := some 1500 }) := by
  simp [toPropertyStep, rawGood1, flattenMapping, flattenGo, mapSet, lookupMap,
    parseZillowProperty, parseNumField, parseStrField, parseUnitsField,
    exceptBind_ok, exceptPure]

/-- Evaluation of the loop body on the concrete record with no `detailUrl`:
the Zod parse fails and the record is dropped. -/
theorem toPropertyStep_rawNoUrl : toPropertyStep rawNoUrl = .ok none := by
  simp [toPropertyStep, rawNoUrl, flattenMapping, flattenGo, mapSet, lookupMap,
    parseZillowProperty, parseNumField, parseStrField, parseUnitsField,
    exceptBind_ok, exceptPure]

/-- Evaluation of the loop body on the second concrete valid record. -/
theorem toPropertyStep_rawGood2 :
    toPropertyStep rawGood2 = .ok (some { detailUrl := "https://b" }) := by
  simp [toPropertyStep, rawGood2, flattenMapping, flattenGo, mapSet, lookupMap,
    parseZillowProperty, parseNumField, parseStrField, parseUnitsField,
    exceptBind_ok, exceptPure]

/-- Claim C8: `recordsToProperties` maps validation over all records and
keeps the successes in input order (`filterMap` when every step runs without
a thrown exception); a record whose parse fails — e.g. one lacking a
`detailUrl` — is dropped while the rest of the batch survives; empty input
gives empty output. -/
theorem C8_records_to_properties :
    recordsToProperties [] = .ok []
    ∧ (∀ pre post r, toPropertyStep r = .ok none →
        recordsToProperties (pre ++ r :: post) = recordsToProperties (pre ++ post))
    ∧ (∀ records, (∀ r ∈ records, ∃ po, toPropertyStep r = .ok po) →
        recordsToProperties records =
          .ok (records.filterMap (fun r =>
            match toPropertyStep r with
            | .ok po => po
            | .error _ => none)))
    ∧ toPropertyStep rawNoUrl = .ok none
    ∧ recordsToProperties [rawGood1, rawNoUrl, rawGood2] =
        .ok [{ detailUrl := "https://a", price := some 1500 },
             { detailUrl := "https://b" }] := by
  refine ⟨rfl, ?_, ?_, toPropertyStep_rawNoUrl, ?_⟩
  · intro pre post r h
    induction pre with
    | nil =>
      simp only [List.nil_append, recordsToProperties, h, exceptBind_ok]
      cases h2 : recordsToProperties post <;>
        simp [h2, exceptBind_ok, exceptBind_error, exceptPure]
    | cons a pre' ih =>
      simp only [List.cons_append, recordsToProperties, List.append_eq]
      rw [ih]
  · intro records h
    induction records with
    | nil => rfl
    | cons r rest ih =>
      obtain ⟨po, hpo⟩ := h r (List.mem_cons_self _ _)
      rw [recordsToProperties, hpo,
        ih (fun r' hr' => h r' (List.mem_cons_of_mem _ hr'))]
      cases po <;>
        simp [List.filterMap_cons, hpo, exceptBind_ok, exceptPure]
  · rw [recordsToProperties, toPropertyStep_rawGood1, exceptBind_ok,
      recordsToProperties, toPropertyStep_rawNoUrl, exceptBind_ok,
      recordsToProperties, toPropertyStep_rawGood2, exceptBind_ok]
    simp [recordsToProperties, exceptBind_ok, exceptPure]

/-- Witness for C8: dropping the concrete `detailUrl`-less record leaves the
surrounding records' processing unchanged. -/
theorem C8_records_to_properties_witness :
    recordsToProperties [rawGood1, rawNoUrl, rawGood2] =
      recordsToProperties [rawGood1, rawGood2] :=
  C8_records_to_properties.2.1 [rawGood1] [rawGood2] rawNoUrl
    toPropertyStep_rawNoUrl

end BnaRentals

